import Mathlib

/-!
Shallow embedding of the invoice-qc-service core (src/invoice_qc) and proofs
about its validator and extractor.  Monetary amounts are modelled as rationals,
optional Python values as `Option`, Python lists as `List`, and the validator's
`seen_invoices` set as a duplicate-free insertion list (only membership and
guarded insertion are ever used on it).
-/

namespace InvoiceQC

/-- Mirrors models.LineItem (Pydantic model). -/
structure LineItem where
  position : Nat
  description : String
  article_number : Option String := none
  quantity : ℚ
  unit : String := "VE"
  unit_price : ℚ
  line_total : ℚ
deriving DecidableEq

/-- Mirrors models.Invoice (Pydantic model), before the date validators run. -/
structure Invoice where
  invoice_number : Option String := none
  customer_number : Option String := none
  order_reference : Option String := none
  buyer_name : Option String := none
  buyer_address : Option String := none
  seller_name : Option String := none
  seller_address : Option String := none
  invoice_date : Option String := none
  due_date : Option String := none
  delivery_date : Option String := none
  currency : Option String := some "EUR"
  net_total : Option ℚ := none
  tax_rate : Option ℚ := none
  tax_amount : Option ℚ := none
  gross_total : Option ℚ := none
  payment_terms : Option String := none
  line_items : List LineItem := []
  source_file : Option String := none
deriving DecidableEq

/-- Mirrors models.ValidationError. -/
structure ValidationError where
  rule : String
  message : String
  severity : String := "error"
deriving DecidableEq

/-- Mirrors models.InvoiceValidationResult. -/
structure InvoiceValidationResult where
  invoice_id : String
  source_file : Option String := none
  is_valid : Bool
  errors : List ValidationError := []
deriving DecidableEq

/-- Mirrors models.ValidationSummary; `error_counts` models the Python dict as
an insertion-ordered association list. -/
structure ValidationSummary where
  total_invoices : Nat
  valid_invoices : Nat
  invalid_invoices : Nat
  error_counts : List (String × Nat) := []
deriving DecidableEq

/-- Mirrors models.ValidationReport; `timestamp` is the value of
datetime.now().isoformat() at construction time, made explicit as data. -/
structure ValidationReport where
  summary : ValidationSummary
  results : List InvoiceValidationResult
  timestamp : String
deriving DecidableEq

/-- validator.InvoiceValidator.KNOWN_CURRENCIES. -/
def KNOWN_CURRENCIES : List String := ["EUR", "USD", "GBP", "INR", "JPY", "CHF"]

/-- One fixed rendering of the Python set repr interpolated into the
unknown-currency message (CPython set iteration order is hash-dependent; the
message text is not load-bearing for any validation behaviour). -/
def knownCurrenciesRepr : String :=
  "\x7b'EUR', 'USD', 'GBP', 'INR', 'JPY', 'CHF'\x7d"

/-- Python str.strip(): remove leading and trailing whitespace.  Implemented
on the character list (the byte-position based String.trim is extensionally
the same but does not reduce in the kernel). -/
def strStrip (s : String) : String :=
  ⟨((s.data.dropWhile Char.isWhitespace).reverse.dropWhile Char.isWhitespace).reverse⟩

/-- Python truthiness test `not s or s.strip() == ""` for an optional string:
true when the value is absent, empty, or whitespace-only. -/
def isBlank : Option String → Bool
  | none => true
  | some s => strStrip s = ""

/-- Python truthiness of an optional string (`if value:`): present and
non-empty. -/
def isTruthy : Option String → Bool
  | none => false
  | some s => s ≠ ""

/-- Numeric value of a decimal digit character. -/
def digitVal (c : Char) : Nat := c.toNat - '0'.toNat

/-- Value of a digit run (most significant first). -/
def digitsVal (l : List Char) : Nat := l.foldl (fun a c => a * 10 + digitVal c) 0

/-- Number of days in a month, mirroring the Gregorian rules used by
datetime (leap years divisible by 4, except centuries not divisible by 400). -/
def daysInMonth (y m : Nat) : Nat :=
  if m = 2 then
    (if y % 4 = 0 && (y % 100 ≠ 0 || y % 400 = 0) then 29 else 28)
  else if m = 4 || m = 6 || m = 9 || m = 11 then 30
  else 31

/-- Mirrors validator._is_valid_date combined with datetime.fromisoformat:
accepts exactly the 10-character strings YYYY-MM-DD whose components form a
real calendar date (datetime years run 1..9999).  Returns the parsed
(year, month, day) triple. -/
def parseIsoDate : String → Option (Nat × Nat × Nat)
  | s =>
    match s.data with
    | [y1, y2, y3, y4, '-', m1, m2, '-', d1, d2] =>
      if y1.isDigit && y2.isDigit && y3.isDigit && y4.isDigit &&
         m1.isDigit && m2.isDigit && d1.isDigit && d2.isDigit then
        let y := digitsVal [y1, y2, y3, y4]
        let m := digitsVal [m1, m2]
        let d := digitsVal [d1, d2]
        if 1 ≤ y && 1 ≤ m && m ≤ 12 && 1 ≤ d && d ≤ daysInMonth y m then
          some (y, m, d)
        else none
      else none
    | _ => none

/-- validator._is_valid_date. -/
def is_valid_date (s : String) : Bool := (parseIsoDate s).isSome

/-- Chronological order on parsed dates; datetime comparison on the parsed
triples is lexicographic. -/
def dateLt : Nat × Nat × Nat → Nat × Nat × Nat → Bool
  | (y1, m1, d1), (y2, m2, d2) =>
    y1 < y2 || (y1 = y2 && (m1 < m2 || (m1 = m2 && d1 < d2)))

/-- Python round-half-even of a rational to the nearest integer (the rounding
used by "%.2f" formatting). -/
def roundHalfEven (q : ℚ) : ℤ :=
  let f := q.floor
  let r := q - f
  if r < 1 / 2 then f
  else if r > 1 / 2 then f + 1
  else if f % 2 = 0 then f else f + 1

/-- Two-digit left zero pad of a natural number below 100. -/
def natPad2 (n : Nat) : String :=
  if n < 10 then "0" ++ toString n else toString n

/-- Model of Python f-string formatting with ":.2f" on a rational amount. -/
def fmt2 (q : ℚ) : String :=
  let sgn := if q < 0 then "-" else ""
  let n := roundHalfEven (|q| * 100)
  sgn ++ toString (n / 100) ++ "." ++ natPad2 (n % 100).toNat

/-- Model of the plain f-string rendering of a float (str(x)); only its
determinism matters to the validator, no claim inspects this text. -/
def fmtFloat (q : ℚ) : String :=
  if q.den = 1 then toString q.num ++ ".0"
  else toString q.num ++ "/" ++ toString q.den

/-- First whitespace-delimited word of a message (Python
message.split()[0]; every message produced by the validator is non-empty). -/
def firstWord (s : String) : String :=
  ⟨(s.data.dropWhile Char.isWhitespace).takeWhile (fun c => ¬ c.isWhitespace)⟩

/-- validator._check_completeness. -/
def check_completeness (inv : Invoice) : List ValidationError :=
  (if isBlank inv.invoice_number then
    [⟨"completeness", "invoice_number is missing or empty", "error"⟩] else []) ++
  (if isBlank inv.invoice_date then
    [⟨"completeness", "invoice_date is missing or empty", "error"⟩] else []) ++
  (if isBlank inv.buyer_name then
    [⟨"completeness", "buyer_name is missing or empty", "error"⟩] else []) ++
  (if isBlank inv.seller_name then
    [⟨"completeness", "seller_name is missing or empty", "error"⟩] else []) ++
  (if isBlank inv.currency then
    [⟨"completeness", "currency is missing or empty", "error"⟩] else [])

/-- Sentinel date strings exempt from the format check. -/
def sentinelDates : List String := ["sofort", "ASAP"]

/-- One iteration of validator._check_formats rule 5 for a named date field. -/
def checkDateFormat (name : String) (v : Option String) : List ValidationError :=
  match v with
  | none => []
  | some s =>
    if s ≠ "" ∧ s ∉ sentinelDates then
      (if is_valid_date s then []
       else [⟨"format", name ++ " has invalid format: " ++ s, "error"⟩])
    else []

/-- One iteration of validator._check_formats rule 7 for a named amount. -/
def checkAmountSign (name : String) (v : Option ℚ) : List ValidationError :=
  match v with
  | none => []
  | some a =>
    if a < 0 then [⟨"format", name ++ " is negative: " ++ fmtFloat a, "error"⟩]
    else []

/-- validator._check_formats rule 6: unknown currency warning. -/
def checkCurrencyKnown (v : Option String) : List ValidationError :=
  match v with
  | none => []
  | some c =>
    if c ≠ "" ∧ c ∉ KNOWN_CURRENCIES then
      [⟨"format", "currency '" ++ c ++ "' not in known set " ++ knownCurrenciesRepr,
        "warning"⟩]
    else []

/-- validator._check_formats. -/
def check_formats (inv : Invoice) : List ValidationError :=
  checkDateFormat "invoice_date" inv.invoice_date ++
  checkDateFormat "due_date" inv.due_date ++
  checkDateFormat "delivery_date" inv.delivery_date ++
  checkCurrencyKnown inv.currency ++
  checkAmountSign "net_total" inv.net_total ++
  checkAmountSign "tax_amount" inv.tax_amount ++
  checkAmountSign "gross_total" inv.gross_total

/-- validator._check_business_rules rule 8 (line-item sum vs net total,
1% relative tolerance). -/
def checkLineItemsSum (inv : Invoice) : List ValidationError :=
  match inv.net_total with
  | none => []
  | some n =>
    if inv.line_items ≠ [] then
      let s := (inv.line_items.map (fun item => item.line_total)).sum
      if |s - n| > n * 0.01 then
        [⟨"business_rule",
          "line_items sum (" ++ fmt2 s ++ ") does not match net_total (" ++
            fmt2 n ++ ")", "error"⟩]
      else []
    else []

/-- validator._check_business_rules rule 9 (net + tax vs gross, absolute
tolerance 0.02). -/
def checkTaxRule (inv : Invoice) : List ValidationError :=
  match inv.net_total, inv.tax_amount, inv.gross_total with
  | some n, some t, some g =>
    if |n + t - g| > 0.02 then
      [⟨"business_rule",
        "tax calculation mismatch: net (" ++ fmt2 n ++ ") + tax (" ++ fmt2 t ++
          ") != gross (" ++ fmt2 g ++ ")", "error"⟩]
    else []
  | _, _, _ => []

/-- validator._check_business_rules rule 10 (due date not before invoice
date; silently skipped unless both dates pass the strict ISO check). -/
def checkDueDateRule (inv : Invoice) : List ValidationError :=
  match inv.invoice_date, inv.due_date with
  | some i, some d =>
    if i ≠ "" ∧ d ≠ "" then
      match parseIsoDate i, parseIsoDate d with
      | some pi, some pd =>
        if dateLt pd pi then
          [⟨"business_rule",
            "due_date (" ++ d ++ ") is before invoice_date (" ++ i ++ ")",
            "error"⟩]
        else []
      | _, _ => []
    else []
  | _, _ => []

/-- validator._check_business_rules. -/
def check_business_rules (inv : Invoice) : List ValidationError :=
  checkLineItemsSum inv ++ checkTaxRule inv ++ checkDueDateRule inv

/-- Composite duplicate key, formed only when invoice_number, seller_name and
invoice_date are all truthy (validator._check_anomalies rule 11 guard). -/
def keyOf (inv : Invoice) : Option String :=
  match inv.invoice_number, inv.seller_name, inv.invoice_date with
  | some a, some b, some c =>
    if a ≠ "" ∧ b ≠ "" ∧ c ≠ "" then some (a ++ "|" ++ b ++ "|" ++ c) else none
  | _, _, _ => none

/-- validator._check_anomalies: returns the emitted errors and the updated
seen-keys state. -/
def check_anomalies (seen : List String) (inv : Invoice) :
    List ValidationError × List String :=
  let dup : List ValidationError × List String :=
    match keyOf inv with
    | some k =>
      if k ∈ seen then
        ([⟨"duplicate",
           "duplicate invoice detected: " ++ inv.invoice_number.getD "",
           "error"⟩], seen)
      else ([], seen ++ [k])
    | none => ([], seen)
  let zero : List ValidationError :=
    match inv.gross_total with
    | some g => if g = 0 then
        [⟨"anomaly", "gross_total is zero, likely extraction error", "warning"⟩]
      else []
    | none => []
  (dup.1 ++ zero, dup.2)

/-- validator.validate_invoice: the four rule categories in order, then the
result record; the seen-keys state is threaded explicitly. -/
def validate_invoice (seen : List String) (inv : Invoice) :
    InvoiceValidationResult × List String :=
  let e1 := check_completeness inv
  let e2 := check_formats inv
  let e3 := check_business_rules inv
  let a := check_anomalies seen inv
  let errors := e1 ++ e2 ++ e3 ++ a.1
  let invoiceId :=
    match inv.invoice_number with
    | none => "UNKNOWN"
    | some s => if s = "" then "UNKNOWN" else s
  ({ invoice_id := invoiceId
     source_file := inv.source_file
     is_valid := errors.isEmpty
     errors := errors }, a.2)

/-- The per-invoice loop of validator.validate_batch: results in batch order
plus the final seen-keys state. -/
def runBatch : List Invoice → List String → List InvoiceValidationResult × List String
  | [], seen => ([], seen)
  | inv :: rest, seen =>
    let r := validate_invoice seen inv
    let rs := runBatch rest r.2
    (r.1 :: rs.1, rs.2)

/-- Aggregation key of one error (rule plus first word of the message). -/
def errorKey (e : ValidationError) : String := e.rule ++ ":" ++ firstWord e.message

/-- Python dict increment error_counts[k] = error_counts.get(k, 0) + 1,
on an insertion-ordered association list. -/
def bumpCount (m : List (String × Nat)) (k : String) : List (String × Nat) :=
  if m.any (fun p => p.1 = k) then
    m.map (fun p => if p.1 = k then (p.1, p.2 + 1) else p)
  else m ++ [(k, 1)]

/-- The error histogram accumulated by validate_batch over all results in
batch order. -/
def collectCounts (results : List InvoiceValidationResult) : List (String × Nat) :=
  results.foldl (fun m r => r.errors.foldl (fun m e => bumpCount m (errorKey e)) m) []

/-- validator.validate_batch.  `seen0` is the validator instance's
seen_invoices field on entry; the first statement of the method clears it,
which the model renders by starting the batch from the empty state.
`timestamp` is the clock value captured by ValidationReport's default. -/
def validate_batch (timestamp : String) (_seen0 : List String)
    (invoices : List Invoice) : ValidationReport :=
  let run := runBatch invoices []
  let results := run.1
  let validCount := (results.filter (fun r => r.is_valid)).length
  { summary :=
      { total_invoices := invoices.length
        valid_invoices := validCount
        invalid_invoices := results.length - validCount
        error_counts := collectCounts results }
    results := results
    timestamp := timestamp }

/-! Extractor model (src/invoice_qc/extractor.py).  The regex patterns used
by the claims are deterministic (every greedy sub-pattern is followed by a
disjoint character class), so re.search is modelled as a leftmost scan that
attempts an exact structural match at each start position. -/

/-- Python value.replace('.', '').replace(',', '.') on a token: drop every
dot, then turn every comma into a dot (both replacements are
single-character, hence char-by-char). -/
def cleanNumberToken (s : String) : String :=
  ⟨(s.data.filter (fun c => c ≠ '.')).map (fun c => if c = ',' then '.' else c)⟩

/-- Exponent suffix of a float literal: either nothing (exponent 0) or
e/E, an optional sign, and at least one digit reaching the end. -/
def parseExp : List Char → Option ℤ
  | [] => some 0
  | c :: rest =>
    if c = 'e' ∨ c = 'E' then
      match rest with
      | '+' :: ds => if ds ≠ [] ∧ ds.all Char.isDigit then some (digitsVal ds) else none
      | '-' :: ds => if ds ≠ [] ∧ ds.all Char.isDigit then some (-(digitsVal ds : ℤ)) else none
      | ds => if ds ≠ [] ∧ ds.all Char.isDigit then some (digitsVal ds) else none
    else none

/-- Unsigned float literal: digits with one optional point (at least one
digit overall) and an optional exponent. -/
def floatCore (l : List Char) : Option ℚ :=
  let ds := l.takeWhile Char.isDigit
  let r1 := l.dropWhile Char.isDigit
  match r1 with
  | '.' :: r2 =>
    let fs := r2.takeWhile Char.isDigit
    let r3 := r2.dropWhile Char.isDigit
    if ds = [] ∧ fs = [] then none
    else (parseExp r3).map (fun e =>
      ((digitsVal ds : ℚ) + (digitsVal fs : ℚ) / (10 : ℚ) ^ fs.length) * (10 : ℚ) ^ e)
  | _ =>
    if ds = [] then none
    else (parseExp r1).map (fun e => (digitsVal ds : ℚ) * (10 : ℚ) ^ e)

/-- Model of the Python float() constructor on finite decimal literals:
surrounding whitespace, an optional sign, digits with at most one point,
an optional exponent.  The special tokens inf/nan denote non-finite floats
with no rational counterpart, and digit-group underscores are an exotic
lexical extension; both are treated as unparseable here. -/
def pyFloat (s : String) : Option ℚ :=
  match (strStrip s).data with
  | '+' :: r => floatCore r
  | '-' :: r => (floatCore r).map (fun q => -q)
  | r => floatCore r

/-- extractor._parse_german_number: empty input yields 0.0, otherwise strip
dots, commas become dots, and a failed parse of the cleaned token yields
0.0 instead of raising. -/
def parse_german_number (s : String) : ℚ :=
  if s = "" then 0
  else
    match pyFloat (cleanNumberToken s) with
    | some q => q
    | none => 0

/-- Case-insensitive literal match (re.IGNORECASE): consumes the pattern,
returns the rest of the input. -/
def ciMatch : List Char → List Char → Option (List Char)
  | [], l => some l
  | _ :: _, [] => none
  | p :: ps, c :: cs => if c.toLower = p.toLower then ciMatch ps cs else none

/-- Case-sensitive literal match: consumes the pattern, returns the rest. -/
def litMatch : List Char → List Char → Option (List Char)
  | [], l => some l
  | _ :: _, [] => none
  | p :: ps, c :: cs => if c = p then litMatch ps cs else none

/-- One-or-more whitespace (regex \s+, greedy; every use site is followed by
a non-whitespace literal, so maximal munch is exact). -/
def takeWS1 : List Char → Option (List Char)
  | [] => none
  | c :: cs => if c.isWhitespace then some (cs.dropWhile Char.isWhitespace) else none

/-- One numeric token (regex \d+[,.]?\d*, greedy): digits, one optional
separator, more digits; returns the token and the rest. -/
def numToken (l : List Char) : Option (List Char × List Char) :=
  let ds := l.takeWhile Char.isDigit
  let r1 := l.dropWhile Char.isDigit
  if ds = [] then none
  else
    match r1 with
    | c :: cs =>
      if c = ',' ∨ c = '.' then
        some (ds ++ c :: cs.takeWhile Char.isDigit, cs.dropWhile Char.isDigit)
      else some (ds, r1)
    | [] => some (ds, [])

/-- Attempt of the net_total pattern
Gesamtwert\s+EUR\s+(\d+[,.]?\d*)  (IGNORECASE) at one start position,
returning the capture group. -/
def matchNetAt (l : List Char) : Option (List Char) :=
  (ciMatch "Gesamtwert".data l).bind fun r1 =>
  (takeWS1 r1).bind fun r2 =>
  (ciMatch "EUR".data r2).bind fun r3 =>
  (takeWS1 r3).bind fun r4 =>
  (numToken r4).map (fun t => t.1)

/-- re.search for the net_total pattern: leftmost match wins. -/
def scanNet : List Char → Option (List Char)
  | [] => none
  | c :: rest =>
    match matchNetAt (c :: rest) with
    | some t => some t
    | none => scanNet rest

/-- extractor._extract_fields for the net_total field: the captured group is
stripped and run through _parse_german_number. -/
def extract_net_total (text : String) : Option ℚ :=
  (scanNet text.data).map (fun t => parse_german_number (strStrip ⟨t⟩))

/-- Attempt of the invoice_date pattern vom\s*(\d{2}\.\d{2}\.\d{4})
(IGNORECASE) at one start position, returning the capture group. -/
def matchVomAt (l : List Char) : Option (List Char) :=
  (ciMatch "vom".data l).bind fun r1 =>
  match r1.dropWhile Char.isWhitespace with
  | d1 :: d2 :: '.' :: m1 :: m2 :: '.' :: y1 :: y2 :: y3 :: y4 :: _ =>
    if d1.isDigit ∧ d2.isDigit ∧ m1.isDigit ∧ m2.isDigit ∧
       y1.isDigit ∧ y2.isDigit ∧ y3.isDigit ∧ y4.isDigit then
      some [d1, d2, '.', m1, m2, '.', y1, y2, y3, y4]
    else none
  | _ => none

/-- re.search for the invoice_date pattern: leftmost match wins. -/
def scanVom : List Char → Option (List Char)
  | [] => none
  | c :: rest =>
    match matchVomAt (c :: rest) with
    | some d => some d
    | none => scanVom rest

/-- Python str.zfill(2) on the digit strings produced by date splitting. -/
def zfill2 (s : String) : String :=
  if 2 ≤ s.length then s else ⟨List.replicate (2 - s.length) '0' ++ s.data⟩

/-- Python v.split('.') (keeping empty segments) on a character list. -/
def splitOnDot : List Char → List (List Char)
  | [] => [[]]
  | c :: rest =>
    if c = '.' then [] :: splitOnDot rest
    else
      match splitOnDot rest with
      | h :: t => (c :: h) :: t
      | [] => [[c]]

/-- extractor._convert_date: DD.MM.YYYY becomes YYYY-MM-DD (zero-padding day
and month); anything that does not split into exactly three dot-separated
parts is returned unchanged (the unpacking ValueError is caught). -/
def convert_date (s : String) : String :=
  if s.data.contains '.' then
    match splitOnDot s.data with
    | [d, m, y] => ⟨y⟩ ++ "-" ++ zfill2 ⟨m⟩ ++ "-" ++ zfill2 ⟨d⟩
    | _ => s
  else s

/-- The invoice_date / due_date part of extractor._extract_fields: the
captured group is stripped, converted from DD.MM.YYYY, and due_date is set
to a copy of invoice_date whenever invoice_date was extracted (there is no
due_date pattern). -/
def extract_date_fields (text : String) : Option String × Option String :=
  match scanVom text.data with
  | some d =>
    let c := convert_date (strStrip ⟨d⟩)
    (some c, some c)
  | none => (none, none)

/-- Attempt of the quantity pattern (\d+)\s+VE (case-sensitive) at one start
position. -/
def matchQtyAt (l : List Char) : Option Nat :=
  let ds := l.takeWhile Char.isDigit
  if ds = [] then none
  else
    (takeWS1 (l.dropWhile Char.isDigit)).bind fun r2 =>
    (litMatch "VE".data r2).map (fun _ => digitsVal ds)

/-- re.search for the quantity pattern. -/
def scanQty : List Char → Option Nat
  | [] => none
  | c :: rest =>
    match matchQtyAt (c :: rest) with
    | some q => some q
    | none => scanQty rest

/-- Attempt of the unit-price pattern (\d+[,.]?\d*)\s+pro\s+1\s+VE
(case-sensitive) at one start position, returning the capture group. -/
def matchPriceAt (l : List Char) : Option (List Char) :=
  (numToken l).bind fun t =>
  (takeWS1 t.2).bind fun r2 =>
  (litMatch "pro".data r2).bind fun r3 =>
  (takeWS1 r3).bind fun r4 =>
  match r4 with
  | '1' :: r5 =>
    (takeWS1 r5).bind fun r6 =>
    (litMatch "VE".data r6).map (fun _ => t.1)
  | _ => none

/-- re.search for the unit-price pattern. -/
def scanPrice : List Char → Option (List Char)
  | [] => none
  | c :: rest =>
    match matchPriceAt (c :: rest) with
    | some t => some t
    | none => scanPrice rest

/-- re.findall of (\d+[,.]?\d*) over the start line: non-overlapping numeric
tokens left to right.  Structural recursion on a fuel counter (each step
consumes at least one character, so the input length is enough fuel). -/
def numTokensF : Nat → List Char → List (List Char)
  | 0, _ => []
  | _, [] => []
  | fuel + 1, c :: rest =>
    if c.isDigit then
      let ds := rest.takeWhile Char.isDigit
      let r1 := rest.dropWhile Char.isDigit
      match r1 with
      | s :: r2 =>
        if s = ',' ∨ s = '.' then
          (c :: ds ++ s :: r2.takeWhile Char.isDigit) ::
            numTokensF fuel (r2.dropWhile Char.isDigit)
        else (c :: ds) :: numTokensF fuel r1
      | [] => [c :: ds]
    else numTokensF fuel rest

/-- re.findall of (\d+[,.]?\d*) over the start line. -/
def numTokens (l : List Char) : List (List Char) := numTokensF l.length l

/-- The line-total selection loop of extractor._parse_line_item, lines
188-202: only when at least two numeric tokens were found, scan them from
the end and keep the first whose value is at least quantity * unit_price *
0.9; afterwards, a still-zero line total is replaced by quantity *
unit_price when the unit price is positive. -/
def selectLineTotal (q up : ℚ) (tokens : List (List Char)) : ℚ :=
  let lt0 : ℚ :=
    if 2 ≤ tokens.length then
      match tokens.reverse.find? (fun t => q * up * 0.9 ≤ parse_german_number ⟨t⟩) with
      | some t => parse_german_number ⟨t⟩
      | none => 0
    else 0
  if lt0 = 0 ∧ 0 < up then q * up else lt0

/-- The numeric components of extractor._parse_line_item on the start line:
quantity from the first (\d+)\s+VE match (none means the candidate is
rejected), unit price from the first (\d+[,.]?\d*)\s+pro\s+1\s+VE match
(default 0), and the selected line total.  The description and article
number drawn from the context window do not interact with these fields. -/
def parse_line_item_amounts (line : String) : Option (ℚ × ℚ × ℚ) :=
  match scanQty line.data with
  | none => none
  | some q0 =>
    let q : ℚ := q0
    let up : ℚ :=
      match scanPrice line.data with
      | some t => parse_german_number ⟨t⟩
      | none => 0
    some (q, up, selectLineTotal q up (numTokens line.data))

/-- The line-total selection rule exactly as the specification states it:
scan all collected tokens from the end, accept the first whose value is at
least quantity * unit_price * 0.9; if none qualifies and unit_price > 0,
synthesize quantity * unit_price; otherwise 0.  (Stated for comparison with
the code; the code adds a two-token minimum before scanning.) -/
def specClaimedLineTotal (q up : ℚ) (tokens : List (List Char)) : ℚ :=
  match tokens.reverse.find? (fun t => q * up * 0.9 ≤ parse_german_number ⟨t⟩) with
  | some t => parse_german_number ⟨t⟩
  | none => if 0 < up then q * up else 0

/-- The amended selection rule: as the claimed rule, but the backward scan
only happens when at least two numeric tokens were collected, and the
synthesis also replaces a selected value of 0 (which can only arise when
quantity * unit_price = 0). -/
def specAmendedLineTotal (q up : ℚ) (tokens : List (List Char)) : ℚ :=
  let selected : Option ℚ :=
    if 2 ≤ tokens.length then
      (tokens.reverse.find? (fun t => q * up * 0.9 ≤ parse_german_number ⟨t⟩)).map
        (fun t => parse_german_number ⟨t⟩)
    else none
  match selected with
  | some v => if v = 0 ∧ 0 < up then q * up else v
  | none => if 0 < up then q * up else 0

/-- models.Invoice.validate_date_format (the Pydantic field validator on the
three date fields): ISO-shaped strings (length 10 with dashes at positions
4 and 7) pass through, three-part dot-separated strings are rearranged to
YYYY-MM-DD with zero padding, and every other value is returned unchanged;
no input is ever rejected. -/
def validate_date_format : Option String → Option String
  | none => none
  | some s =>
    if s.length = 10 ∧ s.data.getD 4 ' ' = '-' ∧ s.data.getD 7 ' ' = '-' then some s
    else if s.data.contains '.' then
      match splitOnDot s.data with
      | [d, m, y] => some (String.mk y ++ "-" ++ zfill2 ⟨m⟩ ++ "-" ++ zfill2 ⟨d⟩)
      | _ => some s
    else some s

/-- Invoice construction: Pydantic runs validate_date_format on the three
date fields. -/
def mkInvoice (inv : Invoice) : Invoice :=
  { inv with
    invoice_date := validate_date_format inv.invoice_date
    due_date := validate_date_format inv.due_date
    delivery_date := validate_date_format inv.delivery_date }

/-- Placeholder result used as the getD default when indexing batch
results (never selected at in-range indices). -/
def defaultResult : InvoiceValidationResult :=
  { invoice_id := "", is_valid := true, errors := [] }

/-! Helper lemmas about the rule components. -/

theorem mem_guard {α : Type} {a x : α} {c : Prop} [Decidable c]
    (h : a ∈ if c then [x] else []) : c ∧ a = x := by
  split at h
  · simp at h
    exact ⟨by assumption, h⟩
  · simp at h

theorem rule_of_mem_check_completeness {inv : Invoice} {e : ValidationError}
    (h : e ∈ check_completeness inv) : e.rule = "completeness" := by
  unfold check_completeness at h
  split_ifs at h <;> aesop

theorem rule_of_mem_checkDateFormat {n : String} {v : Option String}
    {e : ValidationError} (h : e ∈ checkDateFormat n v) : e.rule = "format" := by
  cases v with
  | none => simp [checkDateFormat] at h
  | some s =>
    simp only [checkDateFormat] at h
    split_ifs at h <;> aesop

theorem rule_of_mem_checkAmountSign {n : String} {v : Option ℚ}
    {e : ValidationError} (h : e ∈ checkAmountSign n v) : e.rule = "format" := by
  cases v with
  | none => simp [checkAmountSign] at h
  | some a =>
    simp only [checkAmountSign] at h
    split_ifs at h <;> aesop

theorem rule_of_mem_check_formats {inv : Invoice} {e : ValidationError}
    (h : e ∈ check_formats inv) : e.rule = "format" := by
  unfold check_formats at h
  simp only [List.mem_append] at h
  rcases h with ((((((h | h) | h) | h) | h) | h) | h)
  · exact rule_of_mem_checkDateFormat h
  · exact rule_of_mem_checkDateFormat h
  · exact rule_of_mem_checkDateFormat h
  · cases hc : inv.currency with
    | none => simp [hc, checkCurrencyKnown] at h
    | some c =>
      simp only [hc, checkCurrencyKnown] at h
      split_ifs at h <;> aesop
  · exact rule_of_mem_checkAmountSign h
  · exact rule_of_mem_checkAmountSign h
  · exact rule_of_mem_checkAmountSign h

theorem rule_of_mem_check_business_rules {inv : Invoice} {e : ValidationError}
    (h : e ∈ check_business_rules inv) :
    e.rule = "business_rule" ∧ e.severity = "error" := by
  unfold check_business_rules at h
  simp only [List.mem_append] at h
  rcases h with ((h | h) | h)
  · cases hn : inv.net_total with
    | none => simp [checkLineItemsSum, hn] at h
    | some n =>
      simp only [checkLineItemsSum, hn] at h
      split_ifs at h <;> aesop
  · cases hn : inv.net_total <;> cases ht : inv.tax_amount <;>
      cases hg : inv.gross_total <;> simp only [checkTaxRule, hn, ht, hg] at h <;>
      simp at h <;> try (obtain ⟨-, rfl⟩ := h; exact ⟨rfl, rfl⟩)
  · cases hi : inv.invoice_date <;> cases hd : inv.due_date <;>
      simp only [checkDueDateRule, hi, hd] at h
    · simp at h
    · simp at h
    · simp at h
    · split_ifs at h
      · rename_i s1 s2 _
        rcases hp : parseIsoDate s1 <;> rcases hq : parseIsoDate s2 <;>
          simp only [hp, hq] at h <;> simp at h <;>
          try (obtain ⟨-, rfl⟩ := h; exact ⟨rfl, rfl⟩)
      · simp at h

/-- The duplicate error emitted for an invoice (anomalies rule 11). -/
def dupError (inv : Invoice) : ValidationError :=
  ⟨"duplicate", "duplicate invoice detected: " ++ inv.invoice_number.getD "", "error"⟩

theorem mem_check_anomalies_fst {seen : List String} {inv : Invoice}
    {e : ValidationError} :
    e ∈ (check_anomalies seen inv).1 ↔
      ((∃ k, keyOf inv = some k ∧ k ∈ seen) ∧ e = dupError inv) ∨
      (inv.gross_total = some 0 ∧
        e = ⟨"anomaly", "gross_total is zero, likely extraction error", "warning"⟩) := by
  unfold check_anomalies
  cases hk : keyOf inv with
  | none =>
    cases hg : inv.gross_total with
    | none => simp
    | some g =>
      by_cases hz : g = 0
      · subst hz; simp [hk, hg]
      · simp [hk, hg, hz]
  | some k =>
    by_cases hs : k ∈ seen
    · cases hg : inv.gross_total with
      | none => simp [hk, hg, hs, dupError]
      | some g =>
        by_cases hz : g = 0
        · subst hz; simp [hk, hg, hs, dupError]
        · simp [hk, hg, hs, hz, dupError]
    · cases hg : inv.gross_total with
      | none => simp [hk, hg, hs]
      | some g =>
        by_cases hz : g = 0
        · subst hz; simp [hk, hg, hs]
        · simp [hk, hg, hs, hz]

theorem errors_eq (seen : List String) (inv : Invoice) :
    (validate_invoice seen inv).1.errors =
      check_completeness inv ++ check_formats inv ++ check_business_rules inv ++
        (check_anomalies seen inv).1 := rfl

theorem dup_error_iff {seen : List String} {inv : Invoice} :
    (∃ e ∈ (validate_invoice seen inv).1.errors, e.rule = "duplicate") ↔
      ∃ k, keyOf inv = some k ∧ k ∈ seen := by
  rw [errors_eq]
  constructor
  · rintro ⟨e, he, hr⟩
    simp only [List.mem_append] at he
    rcases he with (((h | h) | h) | h)
    · rw [rule_of_mem_check_completeness h] at hr; simp at hr
    · rw [rule_of_mem_check_formats h] at hr; simp at hr
    · rw [(rule_of_mem_check_business_rules h).1] at hr; simp at hr
    · rcases mem_check_anomalies_fst.1 h with ⟨hk, _⟩ | ⟨_, he⟩
      · exact hk
      · rw [he] at hr; simp at hr
  · rintro ⟨k, hk, hs⟩
    refine ⟨dupError inv, ?_, rfl⟩
    simp only [List.mem_append]
    right
    exact mem_check_anomalies_fst.2 (Or.inl ⟨⟨k, hk, hs⟩, rfl⟩)

theorem dup_severity {seen : List String} {inv : Invoice} {e : ValidationError}
    (he : e ∈ (validate_invoice seen inv).1.errors) (hr : e.rule = "duplicate") :
    e.severity = "error" := by
  rw [errors_eq] at he
  simp only [List.mem_append] at he
  rcases he with (((h | h) | h) | h)
  · rw [rule_of_mem_check_completeness h] at hr; simp at hr
  · rw [rule_of_mem_check_formats h] at hr; simp at hr
  · rw [(rule_of_mem_check_business_rules h).1] at hr; simp at hr
  · rcases mem_check_anomalies_fst.1 h with ⟨_, he⟩ | ⟨_, he⟩
    · rw [he]; rfl
    · rw [he] at hr; simp at hr

/-! Claim theorems. -/

/-- C1: validate_invoice returns is_valid = true exactly when the collected
errors list (to which warning-severity findings are appended alongside
errors) is empty; consequently an invoice whose only findings are warnings
is reported invalid, and any invoice with an unknown non-empty currency
carries a warning-severity entry in that same errors list. -/
theorem valid_iff_errors_empty (seen : List String) (inv : Invoice) :
    ((validate_invoice seen inv).1.is_valid = true ↔
      (validate_invoice seen inv).1.errors = []) ∧
    ((∀ e ∈ (validate_invoice seen inv).1.errors, e.severity = "warning") →
      (validate_invoice seen inv).1.errors ≠ [] →
      (validate_invoice seen inv).1.is_valid = false) ∧
    (∀ c, inv.currency = some c → c ≠ "" → c ∉ KNOWN_CURRENCIES →
      ∃ e ∈ (validate_invoice seen inv).1.errors, e.severity = "warning") := by
  have hv : (validate_invoice seen inv).1.is_valid =
      ((validate_invoice seen inv).1.errors).isEmpty := rfl
  refine ⟨?_, ?_, ?_⟩
  · rw [hv, List.isEmpty_iff]
  · intro _ hne
    rw [hv]
    cases hE : (validate_invoice seen inv).1.errors with
    | nil => exact absurd hE hne
    | cons x xs => simp
  · intro c hc hne hnk
    refine ⟨⟨"format", "currency '" ++ c ++ "' not in known set " ++
      knownCurrenciesRepr, "warning"⟩, ?_, rfl⟩
    rw [errors_eq]
    simp only [List.mem_append]
    left; left; right
    unfold check_formats
    simp only [List.mem_append]
    left; left; left; right
    simp only [checkCurrencyKnown, hc]
    simp [hne, hnk]

/-- C1 witness: an invoice whose only finding is the unknown-currency
warning is reported invalid. -/
theorem valid_iff_errors_empty_witness :
    (validate_invoice []
        { invoice_number := some "A1"
          invoice_date := some "2024-01-10"
          buyer_name := some "B"
          seller_name := some "S"
          currency := some "XYZ" }).1.is_valid = false :=
  (valid_iff_errors_empty [] _).2.1 (by decide) (by decide)

/-- C10: the invoice_id fallback invoice_number or "UNKNOWN" triggers on the
empty string as well as on an absent invoice number. -/
theorem invoice_id_unknown_fallback (seen : List String) (inv : Invoice)
    (h : inv.invoice_number = some "" ∨ inv.invoice_number = none) :
    (validate_invoice seen inv).1.invoice_id = "UNKNOWN" := by
  rcases h with h | h <;> simp [validate_invoice, h]

/-- C10 witness: an invoice whose invoice_number is the empty string gets
invoice_id "UNKNOWN". -/
theorem invoice_id_unknown_fallback_witness :
    (validate_invoice [] { invoice_number := some "" }).1.invoice_id = "UNKNOWN" :=
  invoice_id_unknown_fallback [] _ (Or.inl rfl)

/-- C5: with all of net_total, tax_amount and gross_total present, the tax
rule emits its error (of rule business_rule and severity error, landing in
the invoice's collected error list) exactly when |net + tax - gross|
exceeds the absolute tolerance 0.02; gross 119.02 against 100 + 19 is
within tolerance, gross 119.10 is not. -/
theorem tax_mismatch_exact_tolerance (seen : List String) (inv : Invoice)
    (n t g : ℚ) (hn : inv.net_total = some n) (ht : inv.tax_amount = some t)
    (hg : inv.gross_total = some g) :
    ((checkTaxRule inv ≠ []) ↔ |n + t - g| > 0.02) ∧
    (∀ e ∈ checkTaxRule inv, e.rule = "business_rule" ∧ e.severity = "error" ∧
        e ∈ (validate_invoice seen inv).1.errors) ∧
    (checkTaxRule
      { net_total := some 100
        tax_amount := some 19
        gross_total := some 119.02 } = []) ∧
    (checkTaxRule
      { net_total := some 100
        tax_amount := some 19
        gross_total := some 119.10 } ≠ []) := by
  refine ⟨?_, ?_, ?_, ?_⟩
  · simp only [checkTaxRule, hn, ht, hg]
    by_cases hc : |n + t - g| > 0.02
    · simp [hc]
    · simp [hc]
  · intro e he
    have hb : e ∈ check_business_rules inv := by
      unfold check_business_rules
      simp only [List.mem_append]
      left; right
      exact he
    refine ⟨(rule_of_mem_check_business_rules hb).1,
      (rule_of_mem_check_business_rules hb).2, ?_⟩
    rw [errors_eq]
    simp only [List.mem_append]
    left; right
    exact hb
  · rw [checkTaxRule]
    norm_num [abs_le]
  · rw [checkTaxRule]
    norm_num [lt_abs]

/-- C5 witness: the general tolerance statement applied to the concrete
mismatching invoice net 100, tax 19, gross 119.10. -/
theorem tax_mismatch_exact_tolerance_witness :
    ((checkTaxRule
      { net_total := some 100
        tax_amount := some 19
        gross_total := some 119.10 } ≠ []) ↔
        |(100 : ℚ) + 19 - 119.10| > 0.02) ∧
    (∀ e ∈ checkTaxRule
      ({ net_total := some 100
         tax_amount := some 19
         gross_total := some 119.10 } : Invoice),
        e.rule = "business_rule" ∧ e.severity = "error" ∧
        e ∈ (validate_invoice []
          { net_total := some 100
            tax_amount := some 19
            gross_total := some 119.10 }).1.errors) ∧
    (checkTaxRule
      { net_total := some 100
        tax_amount := some 19
        gross_total := some 119.02 } = []) ∧
    (checkTaxRule
      { net_total := some 100
        tax_amount := some 19
        gross_total := some 119.10 } ≠ []) :=
  tax_mismatch_exact_tolerance [] _ 100 19 119.10 rfl rfl rfl

/-- C8 (amended): re-running the batch validation with any prior engine
state yields identical summaries and identical per-invoice results — the
computation is a pure function of the invoice list — while the report's
timestamp field simply records the clock value of that run, so two runs
with different clock readings produce reports that differ in (and only in)
the timestamp. -/
theorem batch_rerun_deterministic (t1 t2 : String) (s1 s2 : List String)
    (invs : List Invoice) :
    (validate_batch t1 s1 invs).summary = (validate_batch t2 s2 invs).summary ∧
    (validate_batch t1 s1 invs).results = (validate_batch t2 s2 invs).results ∧
    (validate_batch t1 s1 invs).timestamp = t1 :=
  ⟨rfl, rfl, rfl⟩

/-- C8 counterexample: reports produced at different clock readings are not
identical ValidationReport values (they differ in the timestamp field). -/
theorem batch_rerun_reports_differ :
    validate_batch "2024-01-01T10:00:00" [] [] ≠
      validate_batch "2024-01-01T10:00:01" [] [] := by
  intro h
  have := congrArg ValidationReport.timestamp h
  simp [validate_batch] at this

/-! Batch-state lemmas for the duplicate-tracking claim. -/

theorem validate_invoice_snd (seen : List String) (inv : Invoice) :
    (validate_invoice seen inv).2 =
      match keyOf inv with
      | some k => if k ∈ seen then seen else seen ++ [k]
      | none => seen := by
  cases hk : keyOf inv with
  | none => simp [validate_invoice, check_anomalies, hk]
  | some k =>
    simp only [validate_invoice, check_anomalies, hk]
    split <;> rfl

theorem mem_runBatch_snd (k : String) :
    ∀ (invs : List Invoice) (s : List String),
      k ∈ (runBatch invs s).2 ↔ k ∈ s ∨ ∃ inv ∈ invs, keyOf inv = some k := by
  intro invs
  induction invs with
  | nil => intro s; simp [runBatch]
  | cons inv rest ih =>
    intro s
    rw [runBatch]
    simp only [List.mem_cons]
    rw [ih, validate_invoice_snd]
    cases hk : keyOf inv with
    | none =>
      simp only []
      constructor
      · rintro (h | ⟨x, hx, hxk⟩)
        · exact Or.inl h
        · exact Or.inr ⟨x, Or.inr hx, hxk⟩
      · rintro (h | ⟨x, hx, hxk⟩)
        · exact Or.inl h
        · rcases hx with rfl | hx
          · rw [hk] at hxk; simp at hxk
          · exact Or.inr ⟨x, hx, hxk⟩
    | some k2 =>
      simp only []
      by_cases hs : k2 ∈ s
      · rw [if_pos hs]
        constructor
        · rintro (h | ⟨x, hx, hxk⟩)
          · exact Or.inl h
          · exact Or.inr ⟨x, Or.inr hx, hxk⟩
        · rintro (h | ⟨x, hx, hxk⟩)
          · exact Or.inl h
          · rcases hx with rfl | hx
            · rw [hk] at hxk
              injection hxk with hkk
              exact Or.inl (hkk ▸ hs)
            · exact Or.inr ⟨x, hx, hxk⟩
      · rw [if_neg hs]
        constructor
        · rintro (h | ⟨x, hx, hxk⟩)
          · rcases List.mem_append.1 h with h | h
            · exact Or.inl h
            · simp only [List.mem_singleton] at h
              exact Or.inr ⟨inv, Or.inl rfl, by rw [hk, h]⟩
          · exact Or.inr ⟨x, Or.inr hx, hxk⟩
        · rintro (h | ⟨x, hx, hxk⟩)
          · exact Or.inl (List.mem_append_left _ h)
          · rcases hx with rfl | hx
            · rw [hk] at hxk
              injection hxk with hkk
              exact Or.inl (List.mem_append_right _ (by simp [hkk]))
            · exact Or.inr ⟨x, hx, hxk⟩

theorem runBatch_fst_length :
    ∀ (invs : List Invoice) (s : List String),
      (runBatch invs s).1.length = invs.length := by
  intro invs
  induction invs with
  | nil => intro s; rfl
  | cons inv rest ih =>
    intro s
    rw [runBatch]
    simp only [List.length_cons]
    rw [ih]

theorem runBatch_getD :
    ∀ (invs : List Invoice) (s : List String) (i : ℕ) (h : i < invs.length),
      (runBatch invs s).1.getD i defaultResult =
        (validate_invoice (runBatch (invs.take i) s).2 (invs.get ⟨i, h⟩)).1 := by
  intro invs
  induction invs with
  | nil => intro s i h; simp at h
  | cons inv rest ih =>
    intro s i h
    cases i with
    | zero => rfl
    | succ j =>
      have hj : j < rest.length := Nat.lt_of_succ_lt_succ h
      rw [runBatch]
      simp only [List.getD_cons_succ, List.take_succ_cons, List.get_cons_succ]
      rw [ih (validate_invoice s inv).2 j hj]
      rfl

theorem runBatch_append_snd :
    ∀ (a b : List Invoice) (s : List String),
      (runBatch (a ++ b) s).2 = (runBatch b (runBatch a s).2).2 := by
  intro a
  induction a with
  | nil => intro b s; rfl
  | cons inv rest ih =>
    intro b s
    rw [List.cons_append, runBatch]
    exact ih b (validate_invoice s inv).2

theorem runBatch_take_succ_snd (invs : List Invoice) (i : ℕ)
    (h : i < invs.length) (s : List String) :
    (runBatch (invs.take (i + 1)) s).2 =
      (validate_invoice (runBatch (invs.take i) s).2 (invs.get ⟨i, h⟩)).2 := by
  rw [List.take_succ]
  have hg : invs[i]? = some (invs.get ⟨i, h⟩) := by
    rw [List.getElem?_eq_getElem h]
    rfl
  rw [hg]
  rw [runBatch_append_snd]
  rfl

theorem mem_seen_keys (invs : List Invoice) (k : String) :
    k ∈ (runBatch invs []).2 ↔ k ∈ invs.filterMap keyOf := by
  rw [mem_runBatch_snd]
  simp [List.mem_filterMap]

/-- C2: within one validate_batch call the duplicate state starts empty —
the report is independent of any seen-keys state left by earlier calls —
and for an invoice at position i whose invoice_number, seller_name and
invoice_date are all present with composite key k, its result carries a
duplicate error (always of severity error) exactly when some earlier
invoice of the same batch bore the same key; the seen-keys state after
processing invoice i is unchanged when the key was already present and is
extended by exactly k otherwise. -/
theorem duplicate_tracking (invs : List Invoice) (i : ℕ) (k : String)
    (h : i < invs.length) (hk : keyOf (invs.get ⟨i, h⟩) = some k) :
    ((∃ e ∈ ((runBatch invs []).1.getD i defaultResult).errors,
        e.rule = "duplicate") ↔ k ∈ (invs.take i).filterMap keyOf) ∧
    (∀ e ∈ ((runBatch invs []).1.getD i defaultResult).errors,
        e.rule = "duplicate" → e.severity = "error") ∧
    ((runBatch (invs.take (i + 1)) []).2 =
      if k ∈ (invs.take i).filterMap keyOf then (runBatch (invs.take i) []).2
      else (runBatch (invs.take i) []).2 ++ [k]) ∧
    (∀ t s1 s2, validate_batch t s1 invs = validate_batch t s2 invs) := by
  refine ⟨?_, ?_, ?_, fun _ _ _ => rfl⟩
  · rw [runBatch_getD invs [] i h, dup_error_iff]
    constructor
    · rintro ⟨k2, hk2, hmem⟩
      rw [hk] at hk2
      injection hk2 with hkk
      rw [← mem_seen_keys]
      exact hkk ▸ hmem
    · intro hmem
      exact ⟨k, hk, (mem_seen_keys _ _).2 hmem⟩
  · rw [runBatch_getD invs [] i h]
    intro e he hr
    exact dup_severity he hr
  · rw [runBatch_take_succ_snd invs i h [], validate_invoice_snd, hk]
    simp only []
    rw [if_congr (mem_seen_keys _ _) rfl rfl]

/-- C2 witness: in a two-invoice batch carrying the same composite key
INV-1|ABC Ltd|2024-01-10, the second invoice is the one with a duplicate
error, and the seen state is not re-extended. -/
theorem duplicate_tracking_witness :
    ((∃ e ∈ ((runBatch
        [{ invoice_number := some "INV-1"
           seller_name := some "ABC Ltd"
           invoice_date := some "2024-01-10" },
         { invoice_number := some "INV-1"
           seller_name := some "ABC Ltd"
           invoice_date := some "2024-01-10" }] []).1.getD 1 defaultResult).errors,
        e.rule = "duplicate") ↔
      "INV-1|ABC Ltd|2024-01-10" ∈
        (([{ invoice_number := some "INV-1"
             seller_name := some "ABC Ltd"
             invoice_date := some "2024-01-10" },
           { invoice_number := some "INV-1"
             seller_name := some "ABC Ltd"
             invoice_date := some "2024-01-10" }] :
            List Invoice).take 1).filterMap keyOf) ∧
    (∀ e ∈ ((runBatch
        [{ invoice_number := some "INV-1"
           seller_name := some "ABC Ltd"
           invoice_date := some "2024-01-10" },
         { invoice_number := some "INV-1"
           seller_name := some "ABC Ltd"
           invoice_date := some "2024-01-10" }] []).1.getD 1 defaultResult).errors,
        e.rule = "duplicate" → e.severity = "error") ∧
    ((runBatch (([{ invoice_number := some "INV-1"
                    seller_name := some "ABC Ltd"
                    invoice_date := some "2024-01-10" },
                  { invoice_number := some "INV-1"
                    seller_name := some "ABC Ltd"
                    invoice_date := some "2024-01-10" }] :
            List Invoice).take (1 + 1)) []).2 =
      if "INV-1|ABC Ltd|2024-01-10" ∈
          (([{ invoice_number := some "INV-1"
               seller_name := some "ABC Ltd"
               invoice_date := some "2024-01-10" },
             { invoice_number := some "INV-1"
               seller_name := some "ABC Ltd"
               invoice_date := some "2024-01-10" }] :
              List Invoice).take 1).filterMap keyOf then
        (runBatch (([{ invoice_number := some "INV-1"
                       seller_name := some "ABC Ltd"
                       invoice_date := some "2024-01-10" },
                     { invoice_number := some "INV-1"
                       seller_name := some "ABC Ltd"
                       invoice_date := some "2024-01-10" }] :
                List Invoice).take 1) []).2
      else
        (runBatch (([{ invoice_number := some "INV-1"
                       seller_name := some "ABC Ltd"
                       invoice_date := some "2024-01-10" },
                     { invoice_number := some "INV-1"
                       seller_name := some "ABC Ltd"
                       invoice_date := some "2024-01-10" }] :
                List Invoice).take 1) []).2 ++ ["INV-1|ABC Ltd|2024-01-10"]) ∧
    (∀ t s1 s2,
      validate_batch t s1
          [{ invoice_number := some "INV-1"
             seller_name := some "ABC Ltd"
             invoice_date := some "2024-01-10" },
           { invoice_number := some "INV-1"
             seller_name := some "ABC Ltd"
             invoice_date := some "2024-01-10" }] =
        validate_batch t s2
          [{ invoice_number := some "INV-1"
             seller_name := some "ABC Ltd"
             invoice_date := some "2024-01-10" },
           { invoice_number := some "INV-1"
             seller_name := some "ABC Ltd"
             invoice_date := some "2024-01-10" }]) :=
  duplicate_tracking _ 1 "INV-1|ABC Ltd|2024-01-10" (by decide) (by decide)

/-! Number-normalizer and extractor claims. -/

/-- C9: the German-number normalizer is a total function (the model returns
a value for every string by construction, mirroring the caught ValueError):
it strips dots, turns commas into dots, parses the cleaned token as a float
and falls back to 0.0 on empty input or an unparseable cleaned token; on
concrete inputs: full European format parses, garbage and the empty string
give 0. -/
theorem parse_german_number_total (s : String) :
    (parse_german_number s =
      match pyFloat (cleanNumberToken s) with
      | some q => q
      | none => 0) ∧
    parse_german_number "" = 0 ∧
    parse_german_number "1.234,56" = 1234.56 ∧
    parse_german_number "64,00" = 64 ∧
    parse_german_number "abc" = 0 := by
  refine ⟨?_, by decide, ?_, ?_, by decide⟩
  · by_cases h : s = ""
    · subst h; decide
    · rw [parse_german_number, if_neg h]
  · have hc : cleanNumberToken "1.234,56" = "1234.56" := by decide
    rw [parse_german_number, if_neg (by decide), hc]
    have h3 : pyFloat "1234.56" =
        some (((digitsVal ['1','2','3','4'] : ℚ) + (digitsVal ['5','6'] : ℚ) /
          (10 : ℚ) ^ (['5','6'].takeWhile Char.isDigit).length) * (10 : ℚ) ^ (0 : ℤ)) := rfl
    rw [h3]
    have d1 : digitsVal ['1','2','3','4'] = 1234 := by decide
    have d2 : digitsVal ['5','6'] = 56 := by decide
    have d3 : (['5','6'].takeWhile Char.isDigit).length = 2 := by decide
    simp only [d1, d2, d3]
    norm_num
  · have hc : cleanNumberToken "64,00" = "64.00" := by decide
    rw [parse_german_number, if_neg (by decide), hc]
    have h3 : pyFloat "64.00" =
        some (((digitsVal ['6','4'] : ℚ) + (digitsVal ['0','0'] : ℚ) /
          (10 : ℚ) ^ (['0','0'].takeWhile Char.isDigit).length) * (10 : ℚ) ^ (0 : ℤ)) := rfl
    rw [h3]
    have d1 : digitsVal ['6','4'] = 64 := by decide
    have d2 : digitsVal ['0','0'] = 0 := by decide
    have d3 : (['0','0'].takeWhile Char.isDigit).length = 2 := by decide
    simp only [d1, d2, d3]
    norm_num

/-- C3 (code bug): for the document text "Gesamtwert EUR 1.234,56" the
net_total capture group \d+[,.]?\d* admits only a single separator, so the
match stops at the comma and captures "1.234"; the parser then strips the
dot and net_total comes out as 1234.0, not the 1234.56 the specification
requires for the full European-format token. -/
theorem net_total_extraction_truncates :
    extract_net_total "Gesamtwert EUR 1.234,56" = some 1234 ∧
    extract_net_total "Gesamtwert EUR 1.234,56" ≠ some 1234.56 := by
  have h1 : scanNet "Gesamtwert EUR 1.234,56".data = some "1.234".data := by decide
  have h2 : parse_german_number (strStrip ⟨"1.234".data⟩) = 1234 := by
    have hc : cleanNumberToken (strStrip ⟨"1.234".data⟩) = "1234" := by decide
    rw [parse_german_number, if_neg (by decide), hc]
    have h3 : pyFloat "1234" =
        some ((digitsVal ['1','2','3','4'] : ℚ) * (10 : ℚ) ^ (0 : ℤ)) := rfl
    rw [h3]
    have d1 : digitsVal ['1','2','3','4'] = 1234 := by decide
    simp only [d1]
    norm_num
  have hval : extract_net_total "Gesamtwert EUR 1.234,56" = some 1234 := by
    rw [extract_net_total, h1]
    exact congrArg some h2
  refine ⟨hval, ?_⟩
  rw [hval]
  intro hc
  injection hc with hc2
  norm_num at hc2

/-- The code's line-total selection agrees with the amended rule on every
quantity, unit price and token list. -/
theorem selectLineTotal_eq_amended (q up : ℚ) (toks : List (List Char)) :
    selectLineTotal q up toks = specAmendedLineTotal q up toks := by
  unfold selectLineTotal specAmendedLineTotal
  by_cases hl : 2 ≤ toks.length
  · simp only [if_pos hl]
    cases hf : toks.reverse.find?
        (fun t => decide (q * up * 0.9 ≤ parse_german_number ⟨t⟩)) with
    | none => simp
    | some t => simp
  · simp only [if_neg hl]
    simp

/-- C4 (amended): the line total produced for a start line equals the
spec's backward-scan selection amended with the code's two-token minimum:
tokens are scanned from the end only when at least two numeric tokens were
collected (first value at least quantity * unit_price * 0.9 wins), and a
zero outcome with positive unit price is replaced by quantity *
unit_price. -/
theorem line_total_selection (line : String) (q up lt : ℚ)
    (h : parse_line_item_amounts line = some (q, up, lt)) :
    lt = specAmendedLineTotal q up (numTokens line.data) := by
  unfold parse_line_item_amounts at h
  cases hq : scanQty line.data with
  | none =>
    rw [hq] at h
    simp at h
  | some q0 =>
    simp only [hq, Option.some.injEq, Prod.mk.injEq] at h
    obtain ⟨h1, h2, h3⟩ := h
    subst h1
    subst h2
    subst h3
    exact selectLineTotal_eq_amended _ _ _

/-- C4 witness: the amended rule applied to the start line "4 VE" (one
numeric token, no unit price): the produced line total 0 matches the
amended selection. -/
theorem line_total_selection_witness :
    (0 : ℚ) = specAmendedLineTotal 4 0 (numTokens "4 VE".data) :=
  line_total_selection "4 VE" 4 0 0 (by
    have hq : scanQty "4 VE".data = some 4 := by decide
    have hp : scanPrice "4 VE".data = none := by decide
    have ht : numTokens "4 VE".data = [['4']] := by decide
    simp only [parse_line_item_amounts, hq, hp, ht, selectLineTotal]
    norm_num)

/-- C4 counterexample: on the start line "4 VE" the code yields quantity 4,
unit price 0 and line total 0, while the claimed unguarded backward scan
accepts the single token "4" (threshold 4 * 0 * 0.9 = 0) and would yield
line total 4. -/
theorem line_total_claim_counterexample :
    parse_line_item_amounts "4 VE" = some (4, 0, 0) ∧
    specClaimedLineTotal 4 0 (numTokens "4 VE".data) = 4 ∧
    (0 : ℚ) ≠ 4 := by
  refine ⟨?_, ?_, by norm_num⟩
  · have hq : scanQty "4 VE".data = some 4 := by decide
    have hp : scanPrice "4 VE".data = none := by decide
    have ht : numTokens "4 VE".data = [['4']] := by decide
    simp only [parse_line_item_amounts, hq, hp, ht, selectLineTotal]
    norm_num
  · have ht : numTokens "4 VE".data = [['4']] := by decide
    have hp4 : parse_german_number ⟨['4']⟩ = 4 := by
      have hc : cleanNumberToken ⟨['4']⟩ = "4" := by decide
      rw [parse_german_number, if_neg (by decide), hc]
      have h3 : pyFloat "4" = some ((digitsVal ['4'] : ℚ) * (10 : ℚ) ^ (0 : ℤ)) := rfl
      rw [h3]
      norm_num [show digitsVal ['4'] = 4 from by decide]
    rw [specClaimedLineTotal, ht]
    have hcond : (fun t => decide ((4 : ℚ) * 0 * 0.9 ≤ parse_german_number ⟨t⟩)) ['4'] = true := by
      simp only [decide_eq_true_eq]
      rw [hp4]
      norm_num
    have hfind : List.find? (fun t => decide ((4 : ℚ) * 0 * 0.9 ≤ parse_german_number ⟨t⟩))
        [['4']] = some ['4'] := List.find?_cons_of_pos _ hcond
    rw [show ([['4']] : List (List Char)).reverse = [['4']] from rfl]
    rw [hfind]
    exact hp4

/-- The invoice-date pattern matches at the start of the marker substring
for any continuation. -/
theorem matchVom_at_marker (s : List Char) :
    matchVomAt ("vom 05.03.2024".data ++ s) = some "05.03.2024".data := rfl

/-- The leftmost-scan of the invoice-date pattern returns the marker's
capture when no earlier start position matches. -/
theorem scanVom_leftmost :
    ∀ (p s : List Char),
      (∀ j, j < p.length → matchVomAt ((p ++ "vom 05.03.2024".data ++ s).drop j) = none) →
      scanVom (p ++ "vom 05.03.2024".data ++ s) = some "05.03.2024".data := by
  intro p
  induction p with
  | nil =>
    intro s _
    simp only [List.nil_append]
    exact rfl
  | cons a p ih =>
    intro s hnone
    have h0 := hnone 0 (Nat.succ_pos _)
    rw [List.drop_zero] at h0
    have hstep : (a :: p) ++ "vom 05.03.2024".data ++ s =
        a :: (p ++ "vom 05.03.2024".data ++ s) := rfl
    rw [hstep] at h0 ⊢
    simp only [scanVom]
    rw [h0]
    exact ih s (fun j hj => by
      have hjj := hnone (j + 1) (Nat.succ_lt_succ hj)
      rw [hstep] at hjj
      simpa using hjj)

/-- C6: whenever the invoice-date scan captures "05.03.2024" — which it
does for any text that contains "vom 05.03.2024" with no pattern match at
an earlier position — the extractor reports invoice_date "2024-03-05" and
copies it into due_date. -/
theorem invoice_date_normalization (text : String) :
    (scanVom text.data = some "05.03.2024".data →
      extract_date_fields text = (some "2024-03-05", some "2024-03-05")) ∧
    (∀ s : List Char,
      matchVomAt ("vom 05.03.2024".data ++ s) = some "05.03.2024".data) ∧
    (∀ p s : List Char,
      (∀ j, j < p.length → matchVomAt ((p ++ "vom 05.03.2024".data ++ s).drop j) = none) →
      scanVom (p ++ "vom 05.03.2024".data ++ s) = some "05.03.2024".data) := by
  refine ⟨?_, matchVom_at_marker, scanVom_leftmost⟩
  intro h
  simp only [extract_date_fields, h]
  decide

/-- C6 witness: a concrete document containing the marker flanked by other
words extracts invoice_date 2024-03-05 and the same due_date. -/
theorem invoice_date_normalization_witness :
    extract_date_fields "Rechnung vom 05.03.2024 danke" =
      (some "2024-03-05", some "2024-03-05") :=
  (invoice_date_normalization "Rechnung vom 05.03.2024 danke").1 (by decide)

/-- C7 counterexample: the Invoice constructor accepts the date string
"not a date!" unchanged — it is no recognized sentinel and is not
parseable as YYYY-MM-DD, so no parseability invariant holds after
construction. -/
theorem date_invariant_counterexample :
    (mkInvoice { invoice_date := some "not a date!" }).invoice_date =
      some "not a date!" ∧
    "not a date!" ∉ sentinelDates ∧
    is_valid_date "not a date!" = false ∧
    parseIsoDate "not a date!" = none := by decide

/-- C7 (amended): the construction-time date validator never rejects: every
present string is kept, unchanged unless it splits into exactly three
dot-separated parts (the DD.MM.YYYY rearrangement); parseability as
YYYY-MM-DD is NOT established at construction and is checked only by the
rule engine's format rule. -/
theorem date_validator_never_rejects (v : String) :
    (∃ w, validate_date_format (some v) = some w ∧
      (w = v ∨ (splitOnDot v.data).length = 3)) ∧
    validate_date_format none = none := by
  refine ⟨?_, rfl⟩
  simp only [validate_date_format]
  split_ifs with h1 h2
  · exact ⟨v, rfl, Or.inl rfl⟩
  · rcases hsp : splitOnDot v.data with _ | ⟨d, _ | ⟨m, _ | ⟨y, _ | ⟨w4, rest⟩⟩⟩⟩
    · simp only [hsp]
      exact ⟨v, rfl, Or.inl rfl⟩
    · simp only [hsp]
      exact ⟨v, rfl, Or.inl rfl⟩
    · simp only [hsp]
      exact ⟨v, rfl, Or.inl rfl⟩
    · simp only [hsp]
      exact ⟨_, rfl, Or.inr (by simp)⟩
    · simp only [hsp]
      exact ⟨v, rfl, Or.inl rfl⟩
  · exact ⟨v, rfl, Or.inl rfl⟩

end InvoiceQC
